import Mathlib

/-!
Verification of `brenda_utils.one_hot_encoder.OneHotEncoderDF` (a one-hot
encoder over pandas DataFrames) via a shallow embedding.

A DataFrame is modelled as a row index together with an ordered list of named
columns; a cell is either a string or an integer.  The external sklearn
`OneHotEncoder(handle_unknown="ignore")` primitive is modelled from the spec:
its fitted vocabulary for a column is the sorted list of distinct observed
values, and its transform maps a cell to indicator 0/1 entries, with values
outside the vocabulary yielding all zeros.
-/

namespace BrendaUtils

/-- A cell value of a DataFrame: either a string or an integer. -/
inductive Val where
  | str (s : String)
  | int (n : Int)
deriving DecidableEq

/-- Rendering of a category value when it is joined into a column name
(Python's `str.join` requires strings; integer categories would raise there,
a path no claim exercises). -/
def Val.render : Val → String
  | .str s => s
  | .int n => toString n

/-- Strict code-point lexicographic order on character lists. -/
def charsLt : List Char → List Char → Bool
  | [], [] => false
  | [], _ :: _ => true
  | _ :: _, [] => false
  | a :: as, b :: bs => if a < b then true else if b < a then false else charsLt as bs

/-- Boolean lexicographic-ascending comparison on cell values, integers before
strings; on strings it is code-point lexicographic order, matching the order
numpy's `unique` gives to Python strings. -/
def Val.le : Val → Val → Bool
  | .int a, .int b => decide (a ≤ b)
  | .int _, .str _ => true
  | .str _, .int _ => false
  | .str a, .str b => a == b || charsLt a.toList b.toList

/-- A DataFrame: a row index plus named columns in order.  Each column should
hold one value per index entry (`DF.Wf`). -/
structure DF where
  index : List Nat
  cols : List (String × List Val)
deriving DecidableEq

/-- Well-formedness of a DataFrame: every column has one cell per row. -/
def DF.Wf (x : DF) : Prop :=
  ∀ q ∈ x.cols, q.2.length = x.index.length

/-- Column membership, Python's `column in x.columns`. -/
def DF.hasCol (x : DF) (c : String) : Bool :=
  x.cols.any (fun q => q.1 == c)

/-- Column selection, Python's `x[column]` (first column of that name). -/
def DF.getCol (x : DF) (c : String) : List Val :=
  match x.cols.find? (fun q => q.1 == c) with
  | some q => q.2
  | none => []

/-- Number of distinct values in a column, pandas' `x[column].nunique()`. -/
def DF.nunique (x : DF) (c : String) : Nat :=
  ((x.getCol c).eraseDups).length

/-- Ordered insertion into a list assumed sorted by `Val.le`. -/
def insertLe (v : Val) : List Val → List Val
  | [] => [v]
  | w :: ws => if Val.le v w then v :: w :: ws else w :: insertLe v ws

/-- Insertion sort by `Val.le`. -/
def sortVals : List Val → List Val
  | [] => []
  | v :: vs => insertLe v (sortVals vs)

/-- Modelled from the spec: the external categorical-encoding primitive's
fitted vocabulary for one column (sklearn `OneHotEncoder.fit`, whose code is
not part of this repository) - the distinct values observed in the column, in
sorted ascending order. -/
def fitCats (vals : List Val) : List Val :=
  sortVals vals.eraseDups

/-- Modelled from the spec: one cell of the primitive's unknown-tolerant
one-hot transform (sklearn `OneHotEncoder.transform` under
`handle_unknown="ignore"`, whose code is not part of this repository) -
indicator 1 when the cell equals the category, else 0; a cell outside the
fitted vocabulary therefore yields 0 in every indicator of its column. -/
def oneHotCell (w v : Val) : Val :=
  Val.int (if w == v then 1 else 0)

/-- Configuration of `OneHotEncoderDF` as resolved by `__init__`:
`prefixes` is the resolved per-column prefix list (`self.prefix`). -/
structure OneHotEncoderDF where
  columns : List String
  prefixes : List String
  prefix_sep : String
  drop_first : Bool
deriving DecidableEq

/-- The `prefix` argument of `__init__`: absent, a single string, or a list. -/
inductive PrefixSpec where
  | none
  | strv (s : String)
  | listv (l : List String)
deriving DecidableEq

/-- The `ValueError` message of `__init__` for a prefix-list length mismatch. -/
def mismatchMsg (lp lc : Nat) : String :=
  "When `prefix` is not a string, it must be an iterable of equal length with `columns` (one prefix for each column). Found: "
    ++ toString lp ++ " != " ++ toString lc

/-- Embedding of `OneHotEncoderDF.__init__`: resolves the prefix list, raising
`ValueError` when an explicit prefix list does not match `columns` in length. -/
def OneHotEncoderDF.init (columns : List String) (pf : PrefixSpec)
    (prefix_sep : String) (drop_first : Bool) : Except String OneHotEncoderDF :=
  match pf with
  | .none => .ok ⟨columns, columns, prefix_sep, drop_first⟩
  | .strv s => .ok ⟨columns, columns.map (fun _ => s), prefix_sep, drop_first⟩
  | .listv l =>
    if l.length ≠ columns.length then
      .error (mismatchMsg l.length columns.length)
    else
      .ok ⟨columns, l, prefix_sep, drop_first⟩

/-- The `ValueError` message of `fit`/`transform` for a missing column. -/
def missingMsg (c : String) : String :=
  "Column `" ++ c ++ "` for one-hot-encoding wasn\x27t found in the input DataFrame"

/-- The `ValueError` message of `fit` for a column with fewer than 2 distinct
values. -/
def degenerateMsg : String :=
  "Trying to one-hot-encode column with a single unique value"

/-- The validation loop of `fit`: returns the first error in configured-column
order (missing column, then fewer than 2 distinct values), or `none`. -/
def fitCheck (x : DF) : List String → Option String
  | [] => Option.none
  | c :: cs =>
    if !(x.hasCol c) then some (missingMsg c)
    else if x.nunique c < 2 then some degenerateMsg
    else fitCheck x cs

/-- Fitted state: the configuration together with the primitive's fitted
vocabularies (`self.encoder.categories_`), one per configured column. -/
structure Fitted where
  enc : OneHotEncoderDF
  categories : List (List Val)
deriving DecidableEq

/-- Embedding of `OneHotEncoderDF.fit`: validates each configured column, then
delegates vocabulary learning on `x[self.columns]` to the primitive and
returns the (fitted) transformer itself. -/
def OneHotEncoderDF.fit (e : OneHotEncoderDF) (x : DF) : Except String Fitted :=
  match fitCheck x e.columns with
  | some m => .error m
  | Option.none => .ok ⟨e, e.columns.map (fun c => fitCats (x.getCol c))⟩

/-- The per-column iteration data of `transform`: configured column name,
its resolved prefix, and its fitted categories, in configured-column order. -/
def Fitted.zipped (f : Fitted) : List (String × String × List Val) :=
  f.enc.columns.zip (f.enc.prefixes.zip f.categories)

/-- The generated names for one column, Python's
`[self.prefix_sep.join([prefix, val]) for val in self.encoder.categories_[i]]`. -/
def levelNames (sep p : String) (cats : List Val) : List String :=
  cats.map (fun v => String.intercalate sep [p, v.render])

/-- All generated name groups (`level_names`), one group per configured column. -/
def Fitted.levelGroups (f : Fitted) : List (List String) :=
  f.zipped.map (fun cpc => levelNames f.enc.prefix_sep cpc.2.1 cpc.2.2)

/-- Python's `columns_to_drop`: when `drop_first` is set, the first generated
name of each column group (`level_names[0]`). -/
def Fitted.colsToDrop (f : Fitted) : List String :=
  if f.enc.drop_first then f.levelGroups.filterMap List.head? else []

/-- The expansion columns generated for each configured column (name and 0/1
cell list), before dropping, grouped by configured column; flattening the
groups gives the columns of Python's `transformed` frame before `drop`. -/
def expansionGroups (f : Fitted) (x : DF) : List (List (String × List Val)) :=
  f.zipped.map (fun cpc =>
    cpc.2.2.map (fun v =>
      (String.intercalate f.enc.prefix_sep [cpc.2.1, v.render],
       (x.getCol cpc.1).map (fun w => oneHotCell w v))))

/-- The expansion groups after removing every column whose name is in
`columns_to_drop` (pandas `drop` removes all columns carrying such a name). -/
def survivingGroups (f : Fitted) (x : DF) : List (List (String × List Val)) :=
  (expansionGroups f x).map (fun g => g.filter (fun q => !(f.colsToDrop.contains q.1)))

/-- Embedding of `OneHotEncoderDF.transform`: validates column presence, builds
the expansion frame with the primitive's 0/1 matrix and the generated names,
drops `columns_to_drop`, removes the original configured columns from the
input, and concatenates the untouched remainder with the expansion columns on
the unchanged row index. -/
def transform (f : Fitted) (x : DF) : Except String DF :=
  match f.enc.columns.find? (fun c => !(x.hasCol c)) with
  | some c => .error (missingMsg c)
  | Option.none =>
    .ok ⟨x.index,
      x.cols.filter (fun q => !(f.enc.columns.contains q.1))
        ++ ((expansionGroups f x).flatten).filter (fun q => !(f.colsToDrop.contains q.1))⟩

/-! ### Instrumented fit

`fit` with an explicit event trace: one `checked` event per configured column
whose validation completed, and a `delegated` event when (and only when) the
call reaches `self.encoder.fit`, the sole point at which fitted state is
written. -/

/-- An observable step of `fit`: a completed per-column validation, or the
delegation to the encoding primitive (the write of fitted state). -/
inductive FitEvent where
  | checked (c : String)
  | delegated
deriving DecidableEq

/-- The validation loop of `fit`, instrumented: the trace of completed checks
together with the first validation error, if any. -/
def fitTraceGo (x : DF) : List String → List FitEvent × Option String
  | [] => ([], Option.none)
  | c :: cs =>
    if !(x.hasCol c) then ([], some (missingMsg c))
    else if x.nunique c < 2 then ([], some degenerateMsg)
    else
      let r := fitTraceGo x cs
      (FitEvent.checked c :: r.1, r.2)

/-- Embedding of `fit`, instrumented with its event trace: the delegation
event is emitted only after every per-column validation has passed. -/
def OneHotEncoderDF.fitTrace (e : OneHotEncoderDF) (x : DF) :
    List FitEvent × Except String Fitted :=
  match fitTraceGo x e.columns with
  | (tr, some m) => (tr, .error m)
  | (tr, Option.none) =>
    (tr ++ [FitEvent.delegated],
     .ok ⟨e, e.columns.map (fun c => fitCats (x.getCol c))⟩)

/-! ### Helper lemmas -/

theorem intercalate_pair (s a b : String) : String.intercalate s [a, b] = a ++ s ++ b := rfl

theorem insertLe_length (v : Val) (l : List Val) :
    (insertLe v l).length = l.length + 1 := by
  induction l with
  | nil => rfl
  | cons w ws ih => by_cases h : Val.le v w <;> simp [insertLe, h, ih]

theorem sortVals_length (l : List Val) : (sortVals l).length = l.length := by
  induction l with
  | nil => rfl
  | cons v vs ih => simp [sortVals, insertLe_length, ih]

theorem fitCats_length (l : List Val) : (fitCats l).length = l.eraseDups.length := by
  simp [fitCats, sortVals_length]

theorem zip_getElem?_eq_some {α β : Type} {l : List α} {m : List β} {i : Nat}
    {a : α} {b : β} (h : (l.zip m)[i]? = some (a, b)) :
    l[i]? = some a ∧ m[i]? = some b := by
  induction l generalizing m i with
  | nil => simp [List.zip] at h
  | cons u us ih =>
    cases m with
    | nil => simp [List.zip] at h
    | cons w ws =>
      cases i with
      | zero => simp_all [List.zip]
      | succ n => simpa using ih (m := ws) (i := n) (by simpa using h)

theorem fitCheck_eq_none_iff (x : DF) (cs : List String) :
    fitCheck x cs = Option.none ↔
      ∀ c ∈ cs, x.hasCol c = true ∧ 2 ≤ x.nunique c := by
  induction cs with
  | nil => simp [fitCheck]
  | cons c cs ih =>
    by_cases h1 : x.hasCol c
    · by_cases h2 : x.nunique c < 2
      · constructor
        · intro h
          simp [fitCheck, h1, h2] at h
        · intro h
          exact absurd (h c (by simp)).2 (by omega)
      · constructor
        · intro h
          have h3 : fitCheck x cs = Option.none := by
            simpa [fitCheck, h1, h2] using h
          intro c2 hc2
          rcases List.mem_cons.mp hc2 with rfl | hm
          · exact ⟨h1, by omega⟩
          · exact (ih.mp h3) c2 hm
        · intro h
          have h3 : ∀ c2 ∈ cs, x.hasCol c2 = true ∧ 2 ≤ x.nunique c2 :=
            fun c2 hc2 => h c2 (List.mem_cons_of_mem _ hc2)
          simpa [fitCheck, h1, h2] using ih.mpr h3
    · constructor
      · intro h
        simp [fitCheck, h1] at h
      · intro h
        exact absurd (h c (by simp)).1 (by simp [h1])

theorem fit_isOk_iff (e : OneHotEncoderDF) (x : DF) :
    (e.fit x).isOk = true ↔
      ∀ c ∈ e.columns, x.hasCol c = true ∧ 2 ≤ x.nunique c := by
  rw [← fitCheck_eq_none_iff]
  unfold OneHotEncoderDF.fit
  cases h : fitCheck x e.columns <;> simp [h, Except.isOk, Except.toBool]

theorem fit_ok_eq (e : OneHotEncoderDF) (x : DF) (f : Fitted)
    (h : e.fit x = Except.ok f) :
    f = ⟨e, e.columns.map (fun c => fitCats (x.getCol c))⟩
      ∧ fitCheck x e.columns = Option.none := by
  unfold OneHotEncoderDF.fit at h
  cases hc : fitCheck x e.columns <;> simp [hc] at h
  exact ⟨h.symm, rfl⟩

theorem getCol_mem (x : DF) (c : String) (h : x.hasCol c = true) :
    (c, x.getCol c) ∈ x.cols := by
  unfold DF.hasCol at h
  rw [List.any_eq_true] at h
  obtain ⟨q, hq, hqc⟩ := h
  have hs : (x.cols.find? (fun q => q.1 == c)).isSome = true := by
    rw [List.find?_isSome]
    exact ⟨q, hq, hqc⟩
  cases hf : x.cols.find? (fun q => q.1 == c) with
  | none => simp [hf] at hs
  | some q0 =>
    have h1 := List.find?_some hf
    have h2 : q0 ∈ x.cols := List.mem_of_find?_eq_some hf
    have h3 : x.getCol c = q0.2 := by simp [DF.getCol, hf]
    have h4 : q0.1 = c := by simpa using h1
    rw [h3, ← h4]
    exact h2

theorem transform_find?_eq_none (f : Fitted) (x : DF)
    (hp : ∀ c ∈ f.enc.columns, x.hasCol c = true) :
    f.enc.columns.find? (fun c => !(x.hasCol c)) = none := by
  rw [List.find?_eq_none]
  intro c hc
  simp [hp c hc]

theorem transform_ok_eq (f : Fitted) (x : DF)
    (hp : ∀ c ∈ f.enc.columns, x.hasCol c = true) :
    transform f x = Except.ok ⟨x.index,
      x.cols.filter (fun q => !(f.enc.columns.contains q.1))
        ++ (survivingGroups f x).flatten⟩ := by
  unfold transform
  rw [transform_find?_eq_none f x hp]
  simp [survivingGroups, List.filter_flatten]

/-! ### Claim theorems -/

/-- C1: end-to-end example.  Fitting on a `color` column holding
`[red, blue, red, green]` yields fitted categories `[blue, green, red]`
(sorted ascending); with absent prefix and `drop_first = false`, transforming
`color = [red, blue]` yields exactly the columns `color_blue`, `color_green`,
`color_red` with row values `[0,0,1]` and `[1,0,0]`; with `drop_first = true`
it yields `color_green`, `color_red` with row values `[0,1]` and `[0,0]`. -/
theorem c1_end_to_end :
    (OneHotEncoderDF.init (["color"]) PrefixSpec.none ("_") false =
      Except.ok ⟨["color"], ["color"], "_", false⟩)
  ∧ (OneHotEncoderDF.init (["color"]) PrefixSpec.none ("_") true =
      Except.ok ⟨["color"], ["color"], "_", true⟩)
  ∧ (OneHotEncoderDF.fit ⟨["color"], ["color"], "_", false⟩
        ⟨[0, 1, 2, 3], [("color",
          [Val.str ("red"), Val.str ("blue"), Val.str ("red"), Val.str ("green")])]⟩ =
      Except.ok ⟨⟨["color"], ["color"], "_", false⟩,
        [[Val.str ("blue"), Val.str ("green"), Val.str ("red")]]⟩)
  ∧ (OneHotEncoderDF.fit ⟨["color"], ["color"], "_", true⟩
        ⟨[0, 1, 2, 3], [("color",
          [Val.str ("red"), Val.str ("blue"), Val.str ("red"), Val.str ("green")])]⟩ =
      Except.ok ⟨⟨["color"], ["color"], "_", true⟩,
        [[Val.str ("blue"), Val.str ("green"), Val.str ("red")]]⟩)
  ∧ (transform
        ⟨⟨["color"], ["color"], "_", false⟩,
          [[Val.str ("blue"), Val.str ("green"), Val.str ("red")]]⟩
        ⟨[0, 1], [("color", [Val.str ("red"), Val.str ("blue")])]⟩ =
      Except.ok ⟨[0, 1],
        [("color_blue", [Val.int 0, Val.int 1]),
         ("color_green", [Val.int 0, Val.int 0]),
         ("color_red", [Val.int 1, Val.int 0])]⟩)
  ∧ (transform
        ⟨⟨["color"], ["color"], "_", true⟩,
          [[Val.str ("blue"), Val.str ("green"), Val.str ("red")]]⟩
        ⟨[0, 1], [("color", [Val.str ("red"), Val.str ("blue")])]⟩ =
      Except.ok ⟨[0, 1],
        [("color_green", [Val.int 0, Val.int 0]),
         ("color_red", [Val.int 1, Val.int 0])]⟩) :=
  ⟨rfl, rfl, rfl, rfl, rfl, rfl⟩

/-- C7: prefix mismatch.  Constructing with a prefix list whose length differs
from that of `columns` raises a configuration error whose message reports both
lengths; with equal lengths construction succeeds and that list becomes the
per-column prefixes. -/
theorem c7_prefix_mismatch (columns l : List String) (sep : String) (df : Bool) :
    (l.length ≠ columns.length →
      OneHotEncoderDF.init columns (PrefixSpec.listv l) sep df =
        Except.error
          ("When `prefix` is not a string, it must be an iterable of equal length with `columns` (one prefix for each column). Found: "
            ++ toString l.length ++ " != " ++ toString columns.length))
  ∧ (l.length = columns.length →
      OneHotEncoderDF.init columns (PrefixSpec.listv l) sep df =
        Except.ok ⟨columns, l, sep, df⟩) := by
  constructor <;> intro h <;> simp [OneHotEncoderDF.init, mismatchMsg, h]

/-- C7 witness: a 3-element prefix list against 2 columns errors with both
lengths in the message; a 2-element list is accepted as the prefixes. -/
theorem c7_witness :
    (OneHotEncoderDF.init (["a", "b"]) (PrefixSpec.listv ["p", "q", "r"]) ("_") false =
      Except.error
        ("When `prefix` is not a string, it must be an iterable of equal length with `columns` (one prefix for each column). Found: 3 != 2"))
  ∧ (OneHotEncoderDF.init (["a", "b"]) (PrefixSpec.listv ["p", "q"]) ("_") true =
      Except.ok ⟨["a", "b"], ["p", "q"], "_", true⟩) :=
  ⟨(c7_prefix_mismatch (["a", "b"]) (["p", "q", "r"]) ("_") false).1 (by decide),
   (c7_prefix_mismatch (["a", "b"]) (["p", "q"]) ("_") true).2 (by decide)⟩

/-- C8 counterexample: fit can raise although every configured column is
present (a single-valued column), so "fit raises if and only if some
configured column is missing" is false as stated. -/
theorem c8_counterexample :
    ((⟨["a"], ["a"], "_", false⟩ : OneHotEncoderDF).columns.all
        (fun c => DF.hasCol ⟨[0, 1], [("a", [Val.str ("u"), Val.str ("u")])]⟩ c) = true)
  ∧ ((OneHotEncoderDF.fit ⟨["a"], ["a"], "_", false⟩
        ⟨[0, 1], [("a", [Val.str ("u"), Val.str ("u")])]⟩).isOk = false) :=
  ⟨rfl, rfl⟩

/-- C8 (amended): fit raises a validation error iff some configured column is
absent from the fit dataset or has fewer than 2 distinct values there;
transform raises a validation error iff some configured column is absent from
its input. -/
theorem c8_schema_validation (e : OneHotEncoderDF) (f : Fitted) (x : DF) :
    ((e.fit x).isOk = false ↔
      ∃ c ∈ e.columns, x.hasCol c = false ∨ x.nunique c < 2)
  ∧ ((transform f x).isOk = false ↔ ∃ c ∈ f.enc.columns, x.hasCol c = false) := by
  constructor
  · constructor
    · intro h
      rcases Decidable.em (∀ c ∈ e.columns, x.hasCol c = true ∧ 2 ≤ x.nunique c)
        with hall | hex
      · rw [(fit_isOk_iff e x).mpr hall] at h
        cases h
      · push_neg at hex
        obtain ⟨c, hc, hfail⟩ := hex
        refine ⟨c, hc, ?_⟩
        by_cases h1 : x.hasCol c
        · right
          have := hfail h1
          omega
        · left
          simpa using h1
    · rintro ⟨c, hc, hfail⟩
      by_contra hok
      have hall := (fit_isOk_iff e x).mp (by simpa using hok) c hc
      rcases hfail with h | h
      · rw [hall.1] at h
        cases h
      · have := hall.2
        omega
  · cases hft : f.enc.columns.find? (fun c => !(x.hasCol c)) with
    | none =>
      constructor
      · intro h
        simp [transform, hft, Except.isOk, Except.toBool] at h
      · rintro ⟨c, hc, hmiss⟩
        rw [List.find?_eq_none] at hft
        have := hft c hc
        simp [hmiss] at this
    | some c0 =>
      constructor
      · intro _
        have h1 := List.find?_some hft
        have h2 := List.mem_of_find?_eq_some hft
        exact ⟨c0, h2, by simpa using h1⟩
      · intro _
        simp [transform, hft, Except.isOk, Except.toBool]

/-- C8 witness: on a dataset with the configured column absent, both fit and
transform raise; obtained from the amended iff at a concrete input. -/
theorem c8_witness :
    ((OneHotEncoderDF.fit ⟨["a"], ["a"], "_", false⟩ ⟨[0], [("b", [Val.int 1])]⟩).isOk
        = false)
  ∧ ((transform ⟨⟨["a"], ["a"], "_", false⟩, [[Val.int 0, Val.int 1]]⟩
        ⟨[0], [("b", [Val.int 1])]⟩).isOk = false) :=
  ⟨(c8_schema_validation ⟨["a"], ["a"], "_", false⟩
      ⟨⟨["a"], ["a"], "_", false⟩, [[Val.int 0, Val.int 1]]⟩
      ⟨[0], [("b", [Val.int 1])]⟩).1.mpr ⟨"a", by decide, Or.inl (by decide)⟩,
   (c8_schema_validation ⟨["a"], ["a"], "_", false⟩
      ⟨⟨["a"], ["a"], "_", false⟩, [[Val.int 0, Val.int 1]]⟩
      ⟨[0], [("b", [Val.int 1])]⟩).2.mpr ⟨"a", by decide, by decide⟩⟩

/-- C9: degenerate column rejection.  fit raises a validation error when some
configured column has fewer than 2 distinct values in the fit dataset, and
succeeds - returning the transformer itself, now fitted - when every
configured column is present with at least 2 distinct values. -/
theorem c9_degenerate_rejection (e : OneHotEncoderDF) (x : DF) :
    ((∃ c ∈ e.columns, x.nunique c < 2) → (e.fit x).isOk = false)
  ∧ ((∀ c ∈ e.columns, x.hasCol c = true ∧ 2 ≤ x.nunique c) →
      ∃ cats, e.fit x = Except.ok ⟨e, cats⟩) := by
  constructor
  · rintro ⟨c, hc, hdeg⟩
    by_contra hok
    have hall := (fit_isOk_iff e x).mp (by simpa using hok) c hc
    have := hall.2
    omega
  · intro h
    have hnone : fitCheck x e.columns = Option.none :=
      (fitCheck_eq_none_iff x e.columns).mpr h
    exact ⟨e.columns.map (fun c => fitCats (x.getCol c)),
      by simp [OneHotEncoderDF.fit, hnone]⟩

/-- C9 witness: a single-valued column is rejected; a two-valued column is
accepted and fit returns the same configuration as the fitted transformer. -/
theorem c9_witness :
    ((OneHotEncoderDF.fit ⟨["a"], ["a"], "_", false⟩
        ⟨[0, 1], [("a", [Val.str ("u"), Val.str ("u")])]⟩).isOk = false)
  ∧ (∃ cats, OneHotEncoderDF.fit ⟨["a"], ["a"], "_", false⟩
        ⟨[0, 1], [("a", [Val.str ("u"), Val.str ("v")])]⟩ =
      Except.ok ⟨⟨["a"], ["a"], "_", false⟩, cats⟩) :=
  ⟨(c9_degenerate_rejection ⟨["a"], ["a"], "_", false⟩
      ⟨[0, 1], [("a", [Val.str ("u"), Val.str ("u")])]⟩).1 ⟨"a", by decide, by decide⟩,
   (c9_degenerate_rejection ⟨["a"], ["a"], "_", false⟩
      ⟨[0, 1], [("a", [Val.str ("u"), Val.str ("v")])]⟩).2 (by decide)⟩

theorem fitTraceGo_spec (x : DF) (cs : List String) :
    ∃ n, n ≤ cs.length
      ∧ fitTraceGo x cs = ((cs.take n).map FitEvent.checked, fitCheck x cs)
      ∧ (fitCheck x cs = Option.none → n = cs.length) := by
  induction cs with
  | nil => exact ⟨0, by simp [fitTraceGo, fitCheck]⟩
  | cons c cs ih =>
    by_cases h1 : x.hasCol c
    · by_cases h2 : x.nunique c < 2
      · refine ⟨0, by simp, ?_, ?_⟩
        · simp [fitTraceGo, fitCheck, h1, h2]
        · simp [fitCheck, h1, h2]
      · obtain ⟨n, hn, hgo, hnone⟩ := ih
        refine ⟨n + 1, by simpa using hn, ?_, ?_⟩
        · simp [fitTraceGo, fitCheck, h1, h2, hgo]
        · intro h
          have hn2 := hnone (by simpa [fitCheck, h1, h2] using h)
          simp [hn2]
    · refine ⟨0, by simp, ?_, ?_⟩
      · simp [fitTraceGo, fitCheck, h1]
      · simp [fitCheck, h1]

/-- C10: fit atomicity.  The instrumented fit performs its per-column
validations in configured-column order and delegates to the encoding
primitive (the only write of fitted state) strictly afterwards: its result
agrees with fit, a failing fit emits no delegation event, and the trace is a
prefix of the configured-column checks followed by the delegation exactly
when fit succeeds. -/
theorem c10_fit_atomicity (e : OneHotEncoderDF) (x : DF) :
    ((e.fitTrace x).2 = e.fit x)
  ∧ ((e.fit x).isOk = false → FitEvent.delegated ∉ (e.fitTrace x).1)
  ∧ (∃ n, n ≤ e.columns.length
      ∧ (e.fitTrace x).1 = (e.columns.take n).map FitEvent.checked
          ++ (if (e.fit x).isOk then [FitEvent.delegated] else [])
      ∧ ((e.fit x).isOk = true → n = e.columns.length)) := by
  obtain ⟨n, hn, hgo, hnone⟩ := fitTraceGo_spec x e.columns
  cases hc : fitCheck x e.columns with
  | some m =>
    rw [hc] at hgo
    have h2 : e.fit x = Except.error m := by
      simp [OneHotEncoderDF.fit, hc]
    have h1 : e.fitTrace x =
        ((e.columns.take n).map FitEvent.checked, Except.error m) := by
      simp [OneHotEncoderDF.fitTrace, hgo]
    refine ⟨by simp [h1, h2], ?_, ⟨n, hn, ?_, ?_⟩⟩
    · intro _
      rw [h1]
      intro hmem
      obtain ⟨a, -, ha⟩ := List.mem_map.mp hmem
      cases ha
    · simp [h1, h2, Except.isOk, Except.toBool]
    · intro habs
      simp [h2, Except.isOk, Except.toBool] at habs
  | none =>
    rw [hc] at hgo
    have h2 : e.fit x =
        Except.ok ⟨e, e.columns.map (fun c => fitCats (x.getCol c))⟩ := by
      simp [OneHotEncoderDF.fit, hc]
    have h1 : e.fitTrace x =
        ((e.columns.take n).map FitEvent.checked ++ [FitEvent.delegated],
         Except.ok ⟨e, e.columns.map (fun c => fitCats (x.getCol c))⟩) := by
      simp [OneHotEncoderDF.fitTrace, hgo]
    refine ⟨by simp [h1, h2], ?_, ⟨n, hn, ?_, ?_⟩⟩
    · intro habs
      simp [h2, Except.isOk, Except.toBool] at habs
    · simp [h1, h2, Except.isOk, Except.toBool]
    · intro _
      exact hnone hc

/-- C10 witness: on a failing fit (single-valued column) the instrumented fit
emits no delegation event. -/
theorem c10_witness :
    FitEvent.delegated ∉
      (OneHotEncoderDF.fitTrace ⟨["a"], ["a"], "_", false⟩
        ⟨[0, 1], [("a", [Val.str ("u"), Val.str ("u")])]⟩).1 :=
  (c10_fit_atomicity ⟨["a"], ["a"], "_", false⟩
      ⟨[0, 1], [("a", [Val.str ("u"), Val.str ("u")])]⟩).2.1 (by decide)

/-- C3: naming.  For the i-th configured column with resolved prefix `p` and
fitted categories `cats`, the generated names are exactly
`p ++ prefix_sep ++ v` for each category value `v`, in fitted category order;
and the expansion columns generated by transform for that column carry exactly
those names in that order. -/
theorem c3_naming (f : Fitted) (i : Nat) (c p : String) (cats : List Val)
    (hz : f.zipped[i]? = some (c, p, cats)) :
    (f.levelGroups)[i]? =
      some (cats.map (fun v => p ++ f.enc.prefix_sep ++ v.render))
  ∧ (∀ x gx, (expansionGroups f x)[i]? = some gx →
      gx.map Prod.fst = cats.map (fun v => p ++ f.enc.prefix_sep ++ v.render)) := by
  constructor
  · simp [Fitted.levelGroups, List.getElem?_map, hz, levelNames, intercalate_pair]
  · intro x gx hgx
    have h2 : (expansionGroups f x)[i]? = some (cats.map (fun v =>
        (String.intercalate f.enc.prefix_sep [p, v.render],
         (x.getCol c).map (fun w => oneHotCell w v)))) := by
      simp [expansionGroups, List.getElem?_map, hz]
    rw [h2] at hgx
    injection hgx with hgx2
    subst hgx2
    simp [List.map_map, Function.comp, intercalate_pair]

/-- C3 witness: the column `color` with prefix `color`, separator `_` and
fitted categories `blue, green, red` generates exactly the names
`color_blue, color_green, color_red`, in that order. -/
theorem c3_witness :
    (Fitted.levelGroups ⟨⟨["color"], ["color"], "_", false⟩,
        [[Val.str ("blue"), Val.str ("green"), Val.str ("red")]]⟩)[0]? =
      some ["color_blue", "color_green", "color_red"] :=
  (c3_naming ⟨⟨["color"], ["color"], "_", false⟩,
      [[Val.str ("blue"), Val.str ("green"), Val.str ("red")]]⟩ 0 ("color") ("color")
      [Val.str ("blue"), Val.str ("green"), Val.str ("red")] rfl).1

/-- C4: assembly and pass-through.  For a fitted transformer and an input
containing every configured column, transform succeeds and its result keeps
the input's row index and consists of the input's non-configured columns,
values unchanged, followed by the surviving expansion columns grouped in
configured-column order with fitted-category order inside each group; the
original configured columns are removed. -/
theorem c4_assembly (e : OneHotEncoderDF) (x0 x : DF) (f : Fitted)
    (_hfit : e.fit x0 = Except.ok f)
    (hp : ∀ c ∈ f.enc.columns, x.hasCol c = true) :
    ∃ y, transform f x = Except.ok y
      ∧ y.index = x.index
      ∧ y.cols = x.cols.filter (fun q => !(f.enc.columns.contains q.1))
          ++ (survivingGroups f x).flatten
      ∧ (∀ q ∈ x.cols, f.enc.columns.contains q.1 = false → q ∈ y.cols) := by
  refine ⟨_, transform_ok_eq f x hp, rfl, rfl, ?_⟩
  intro q hq hnc
  apply List.mem_append_left
  exact List.mem_filter.mpr ⟨hq, by simp only [hnc, Bool.not_false]⟩

/-- C4 witness: concrete assembly with one pass-through column `size` and one
encoded column `color`. -/
theorem c4_witness :
    ∃ y, transform ⟨⟨["color"], ["color"], "_", false⟩,
        [[Val.str ("blue"), Val.str ("green"), Val.str ("red")]]⟩
        ⟨[0, 1], [("size", [Val.int 5, Val.int 7]),
                  ("color", [Val.str ("red"), Val.str ("blue")])]⟩ = Except.ok y
      ∧ y.index = (⟨[0, 1], [("size", [Val.int 5, Val.int 7]),
                  ("color", [Val.str ("red"), Val.str ("blue")])]⟩ : DF).index
      ∧ y.cols = (⟨[0, 1], [("size", [Val.int 5, Val.int 7]),
                  ("color", [Val.str ("red"), Val.str ("blue")])]⟩ : DF).cols.filter
            (fun q => !((⟨["color"], ["color"], "_", false⟩ : OneHotEncoderDF).columns.contains q.1))
          ++ (survivingGroups ⟨⟨["color"], ["color"], "_", false⟩,
              [[Val.str ("blue"), Val.str ("green"), Val.str ("red")]]⟩
              ⟨[0, 1], [("size", [Val.int 5, Val.int 7]),
                  ("color", [Val.str ("red"), Val.str ("blue")])]⟩).flatten
      ∧ (∀ q ∈ (⟨[0, 1], [("size", [Val.int 5, Val.int 7]),
                  ("color", [Val.str ("red"), Val.str ("blue")])]⟩ : DF).cols,
          (⟨["color"], ["color"], "_", false⟩ : OneHotEncoderDF).columns.contains q.1 = false →
            q ∈ y.cols) :=
  c4_assembly ⟨["color"], ["color"], "_", false⟩
    ⟨[0, 1, 2, 3], [("color",
      [Val.str ("red"), Val.str ("blue"), Val.str ("red"), Val.str ("green")])]⟩
    ⟨[0, 1], [("size", [Val.int 5, Val.int 7]),
        ("color", [Val.str ("red"), Val.str ("blue")])]⟩
    ⟨⟨["color"], ["color"], "_", false⟩,
      [[Val.str ("blue"), Val.str ("green"), Val.str ("red")]]⟩
    rfl (by decide)

/-- C5: row preservation.  For a fitted transformer, a well-formed input on
which transform succeeds yields an output with the input's row index (hence
row count and order), every output column having one cell per input row. -/
theorem c5_row_preservation (e : OneHotEncoderDF) (x0 x y : DF) (f : Fitted)
    (_hfit : e.fit x0 = Except.ok f) (hwf : x.Wf)
    (hok : transform f x = Except.ok y) :
    y.index = x.index ∧ ∀ q ∈ y.cols, q.2.length = x.index.length := by
  cases hft : f.enc.columns.find? (fun c => !(x.hasCol c)) with
  | some c =>
    have herr : transform f x = Except.error (missingMsg c) := by
      unfold transform
      rw [hft]
    rw [herr] at hok
    exact Except.noConfusion hok
  | none =>
    have htr : transform f x = Except.ok ⟨x.index,
        x.cols.filter (fun q => !(f.enc.columns.contains q.1))
          ++ ((expansionGroups f x).flatten).filter
              (fun q => !(f.colsToDrop.contains q.1))⟩ := by
      unfold transform
      rw [hft]
    rw [htr] at hok
    injection hok with h
    subst h
    refine ⟨rfl, ?_⟩
    intro q hq
    rcases List.mem_append.mp hq with hq | hq
    · exact hwf q (List.mem_filter.mp hq).1
    · have hq2 := (List.mem_filter.mp hq).1
      obtain ⟨g, hg, hqg⟩ := List.mem_flatten.mp hq2
      obtain ⟨cpc, hcpc, rfl⟩ := List.mem_map.mp hg
      obtain ⟨v, hv, rfl⟩ := List.mem_map.mp hqg
      simp only [List.length_map]
      have hcol : cpc.1 ∈ f.enc.columns := (List.of_mem_zip hcpc).1
      have hhas : x.hasCol cpc.1 = true := by
        rw [List.find?_eq_none] at hft
        have := hft cpc.1 hcol
        simpa using this
      exact hwf _ (getCol_mem x cpc.1 hhas)

/-- C5 witness: the end-to-end example output has the input's index and
two cells in every column. -/
theorem c5_witness :
    (⟨[0, 1], [("color_blue", [Val.int 0, Val.int 1]),
        ("color_green", [Val.int 0, Val.int 0]),
        ("color_red", [Val.int 1, Val.int 0])]⟩ : DF).index =
      (⟨[0, 1], [("color", [Val.str ("red"), Val.str ("blue")])]⟩ : DF).index
  ∧ ∀ q ∈ (⟨[0, 1], [("color_blue", [Val.int 0, Val.int 1]),
        ("color_green", [Val.int 0, Val.int 0]),
        ("color_red", [Val.int 1, Val.int 0])]⟩ : DF).cols,
      q.2.length =
        (⟨[0, 1], [("color", [Val.str ("red"), Val.str ("blue")])]⟩ : DF).index.length :=
  c5_row_preservation ⟨["color"], ["color"], "_", false⟩
    ⟨[0, 1, 2, 3], [("color",
      [Val.str ("red"), Val.str ("blue"), Val.str ("red"), Val.str ("green")])]⟩
    ⟨[0, 1], [("color", [Val.str ("red"), Val.str ("blue")])]⟩
    ⟨[0, 1], [("color_blue", [Val.int 0, Val.int 1]),
        ("color_green", [Val.int 0, Val.int 0]),
        ("color_red", [Val.int 1, Val.int 0])]⟩
    ⟨⟨["color"], ["color"], "_", false⟩,
      [[Val.str ("blue"), Val.str ("green"), Val.str ("red")]]⟩
    rfl (by simp [DF.Wf]) rfl

/-- C6: unknown-category zero-fill.  For a fitted transformer, a row whose
value in a configured column was never seen at fit time yields cell 0 in every
expansion column generated for that column, and transform does not fail on it
(given the configured columns are present). -/
theorem c6_unknown_zero (e : OneHotEncoderDF) (x0 x : DF) (f : Fitted)
    (_hfit : e.fit x0 = Except.ok f)
    (i r : Nat) (c p : String) (cats : List Val) (v : Val)
    (hz : f.zipped[i]? = some (c, p, cats))
    (hv : (x.getCol c)[r]? = some v) (hunk : v ∉ cats)
    (gx : List (String × List Val))
    (hgx : (expansionGroups f x)[i]? = some gx) :
    (∀ q ∈ gx, q.2[r]? = some (Val.int 0))
  ∧ ((∀ c2 ∈ f.enc.columns, x.hasCol c2 = true) → (transform f x).isOk = true) := by
  constructor
  · have h2 : (expansionGroups f x)[i]? = some (cats.map (fun v2 =>
        (String.intercalate f.enc.prefix_sep [p, v2.render],
         (x.getCol c).map (fun w => oneHotCell w v2)))) := by
      simp [expansionGroups, List.getElem?_map, hz]
    rw [h2] at hgx
    injection hgx with hgx2
    subst hgx2
    intro q hq
    obtain ⟨v2, hv2, rfl⟩ := List.mem_map.mp hq
    have hne : v ≠ v2 := fun h => hunk (h ▸ hv2)
    simp only [List.getElem?_map, hv, Option.map_some]
    simp [oneHotCell, hne]
  · intro hp
    rw [transform_ok_eq f x hp]
    rfl

/-- C6 witness: the unseen value `yellow` yields 0 in the `color_blue`
expansion column, and transform succeeds on the dataset containing it. -/
theorem c6_witness :
    ((("color_blue", [Val.int 0]) : String × List Val).2[0]? = some (Val.int 0))
  ∧ ((transform ⟨⟨["color"], ["color"], "_", false⟩,
        [[Val.str ("blue"), Val.str ("green"), Val.str ("red")]]⟩
      ⟨[0], [("color", [Val.str ("yellow")])]⟩).isOk = true) :=
  ⟨(c6_unknown_zero ⟨["color"], ["color"], "_", false⟩
      ⟨[0, 1, 2, 3], [("color",
        [Val.str ("red"), Val.str ("blue"), Val.str ("red"), Val.str ("green")])]⟩
      ⟨[0], [("color", [Val.str ("yellow")])]⟩
      ⟨⟨["color"], ["color"], "_", false⟩,
        [[Val.str ("blue"), Val.str ("green"), Val.str ("red")]]⟩
      rfl 0 0 ("color") ("color")
      [Val.str ("blue"), Val.str ("green"), Val.str ("red")]
      (Val.str ("yellow")) rfl rfl (by decide)
      [("color_blue", [Val.int 0]), ("color_green", [Val.int 0]),
       ("color_red", [Val.int 0])] rfl).1
      ("color_blue", [Val.int 0]) (by decide),
   (c6_unknown_zero ⟨["color"], ["color"], "_", false⟩
      ⟨[0, 1, 2, 3], [("color",
        [Val.str ("red"), Val.str ("blue"), Val.str ("red"), Val.str ("green")])]⟩
      ⟨[0], [("color", [Val.str ("yellow")])]⟩
      ⟨⟨["color"], ["color"], "_", false⟩,
        [[Val.str ("blue"), Val.str ("green"), Val.str ("red")]]⟩
      rfl 0 0 ("color") ("color")
      [Val.str ("blue"), Val.str ("green"), Val.str ("red")]
      (Val.str ("yellow")) rfl rfl (by decide)
      [("color_blue", [Val.int 0]), ("color_green", [Val.int 0]),
       ("color_red", [Val.int 0])] rfl).2 (by decide)⟩

/-! ### Lemmas for the column-count analysis (C2) -/

theorem nodup_flatten_disjoint {α : Type} {L : List (List α)}
    (h : L.flatten.Nodup) {i j : Nat} (hi : i < L.length) (hj : j < L.length)
    (hne : i ≠ j) {a : α} (ha : a ∈ L[i]) (hb : a ∈ L[j]) : False := by
  have hp := (List.nodup_flatten.mp h).2
  rw [List.pairwise_iff_getElem] at hp
  rcases Nat.lt_or_ge i j with hlt | hge
  · exact hp i j hi hj hlt ha hb
  · have hlt : j < i := by omega
    exact hp j i hj hi hlt hb ha

theorem head_dropped (f : Fitted) (hdf : f.enc.drop_first = true)
    {i : Nat} {g : List String} (hg : (f.levelGroups)[i]? = some g)
    {n : String} (hhead : g.head? = some n) : n ∈ f.colsToDrop := by
  rw [Fitted.colsToDrop, if_pos hdf]
  obtain ⟨hi, hgi⟩ := List.getElem?_eq_some.mp hg
  exact List.mem_filterMap.mpr ⟨g, hgi ▸ List.getElem_mem hi, hhead⟩

theorem tail_not_dropped (f : Fitted) (hdf : f.enc.drop_first = true)
    (hnodup : (f.levelGroups).flatten.Nodup)
    {i : Nat} {g : List String} (hg : (f.levelGroups)[i]? = some g)
    {n : String} (hn : n ∈ g.tail) : n ∉ f.colsToDrop := by
  intro hmem
  rw [Fitted.colsToDrop, if_pos hdf] at hmem
  obtain ⟨g2, hg2, hhead⟩ := List.mem_filterMap.mp hmem
  obtain ⟨hi, hgi⟩ := List.getElem?_eq_some.mp hg
  obtain ⟨j, hj, hgj⟩ := List.getElem_of_mem hg2
  have hng : n ∈ g := by
    cases g with
    | nil => cases hn
    | cons b bs => exact List.mem_cons_of_mem b hn
  have hng2 : n ∈ g2 := by
    cases g2 with
    | nil => cases hhead
    | cons b bs =>
      have hb : b = n := by simpa using hhead
      rw [← hb]
      exact List.mem_cons_self _ _
  by_cases hij : i = j
  · subst hij
    have hgg : g2 = g := by rw [← hgi, hgj]
    subst hgg
    have hgnodup : g2.Nodup :=
      (List.nodup_flatten.mp hnodup).1 g2 (hgi ▸ List.getElem_mem hi)
    cases g2 with
    | nil => cases hn
    | cons b bs =>
      have hb : b = n := by simpa using hhead
      subst hb
      have : b ∉ bs := (List.nodup_cons.mp hgnodup).1
      exact this (by simpa using hn)
  · exact nodup_flatten_disjoint hnodup hi hj hij (hgi ▸ hng) (hgj.symm ▸ hng2)

theorem levelGroups_getElem?_of_expansion (f : Fitted) (x : DF)
    {i : Nat} {gx : List (String × List Val)}
    (hgx : (expansionGroups f x)[i]? = some gx) :
    (f.levelGroups)[i]? = some (gx.map Prod.fst) := by
  unfold expansionGroups at hgx
  rw [List.getElem?_map] at hgx
  cases hz : f.zipped[i]? with
  | none => rw [hz] at hgx; cases hgx
  | some cpc =>
    rw [hz] at hgx
    have hgxeq : gx = cpc.2.2.map (fun v =>
        (String.intercalate f.enc.prefix_sep [cpc.2.1, v.render],
         (x.getCol cpc.1).map (fun w => oneHotCell w v))) :=
      (Option.some.inj hgx).symm
    subst hgxeq
    unfold Fitted.levelGroups
    rw [List.getElem?_map, hz]
    simp [levelNames, List.map_map, Function.comp]

theorem surviving_group_eq (f : Fitted) (x : DF)
    (hnodup : (f.levelGroups).flatten.Nodup)
    {i : Nat} {gx : List (String × List Val)}
    (hgx : (expansionGroups f x)[i]? = some gx) :
    gx.filter (fun q => !(f.colsToDrop.contains q.1)) =
      if f.enc.drop_first then gx.tail else gx := by
  by_cases hdf : f.enc.drop_first
  · rw [if_pos hdf]
    cases gx with
    | nil => simp
    | cons q0 qrest =>
      have hlev := levelGroups_getElem?_of_expansion f x hgx
      have hd : q0.1 ∈ f.colsToDrop :=
        head_dropped f hdf hlev (by simp)
      have ht : ∀ q ∈ qrest, (!(f.colsToDrop.contains q.1)) = true := by
        intro q hq
        have hnd : q.1 ∉ f.colsToDrop := by
          refine tail_not_dropped f hdf hnodup hlev ?_
          show q.1 ∈ ((q0 :: qrest).map Prod.fst).tail
          simp only [List.map_cons, List.tail_cons]
          exact List.mem_map_of_mem Prod.fst hq
        simp [hnd]
      rw [List.filter_cons_of_neg (by simp [hd]), List.filter_eq_self.mpr ht]
      rfl
  · rw [if_neg hdf]
    apply List.filter_eq_self.mpr
    intro q hq
    simp [Fitted.colsToDrop, hdf]

/-- C2 counterexample: with a shared prefix `p`, columns `a` (fitted
categories `x, y`) and `b` (fitted categories `w, x`) and `drop_first = true`,
the dropped first-category name `p_x` of column `a` also removes column `b`'s
`p_x` expansion column, so `b` ends with 0 expansion columns instead of the
claimed k−1 = 1: the whole output carries a single expansion column. -/
theorem c2_counterexample :
    (OneHotEncoderDF.fit ⟨["a", "b"], ["p", "p"], "_", true⟩
        ⟨[0, 1], [("a", [Val.str ("x"), Val.str ("y")]),
                  ("b", [Val.str ("w"), Val.str ("x")])]⟩ =
      Except.ok ⟨⟨["a", "b"], ["p", "p"], "_", true⟩,
        [[Val.str ("x"), Val.str ("y")], [Val.str ("w"), Val.str ("x")]]⟩)
  ∧ ((Fitted.categories ⟨⟨["a", "b"], ["p", "p"], "_", true⟩,
        [[Val.str ("x"), Val.str ("y")], [Val.str ("w"), Val.str ("x")]]⟩)[1]? =
      some [Val.str ("w"), Val.str ("x")])
  ∧ ((survivingGroups ⟨⟨["a", "b"], ["p", "p"], "_", true⟩,
        [[Val.str ("x"), Val.str ("y")], [Val.str ("w"), Val.str ("x")]]⟩
        ⟨[0, 1], [("a", [Val.str ("x"), Val.str ("y")]),
                  ("b", [Val.str ("w"), Val.str ("x")])]⟩)[1]? = some [])
  ∧ (transform ⟨⟨["a", "b"], ["p", "p"], "_", true⟩,
        [[Val.str ("x"), Val.str ("y")], [Val.str ("w"), Val.str ("x")]]⟩
        ⟨[0, 1], [("a", [Val.str ("x"), Val.str ("y")]),
                  ("b", [Val.str ("w"), Val.str ("x")])]⟩ =
      Except.ok ⟨[0, 1], [("p_y", [Val.int 0, Val.int 1])]⟩) :=
  ⟨rfl, rfl, rfl, rfl⟩

/-- C2 (amended): for a fitted configured column with `k` fitted categories,
provided the generated expansion column names are globally distinct, transform
keeps exactly `k` expansion columns for it when `drop_first` is false and
exactly `k − 1` when `drop_first` is true, the omitted column being the one
for the first category in fitted category order (the surviving group is the
tail of the generated group). -/
theorem c2_column_count (e : OneHotEncoderDF) (x0 x : DF) (f : Fitted)
    (hfit : e.fit x0 = Except.ok f)
    (hnodup : (f.levelGroups).flatten.Nodup)
    (i : Nat) (cats : List Val) (gx : List (String × List Val))
    (hcats : f.categories[i]? = some cats)
    (hgx : (expansionGroups f x)[i]? = some gx) :
    2 ≤ cats.length
  ∧ gx.length = cats.length
  ∧ (survivingGroups f x)[i]? = some (if f.enc.drop_first then gx.tail else gx)
  ∧ ((survivingGroups f x)[i]?).map List.length =
      some (cats.length - (if f.enc.drop_first then 1 else 0)) := by
  obtain ⟨hfeq, hchk⟩ := fit_ok_eq e x0 f hfit
  have hcatmap : f.categories = e.columns.map (fun c => fitCats (x0.getCol c)) := by
    rw [hfeq]
  -- the k >= 2 bound, from the fit-time validation
  have hcats2 := hcats
  rw [hcatmap, List.getElem?_map] at hcats2
  have hk : 2 ≤ cats.length := by
    cases hcol : e.columns[i]? with
    | none => rw [hcol] at hcats2; cases hcats2
    | some c =>
      rw [hcol] at hcats2
      have hcatseq : cats = fitCats (x0.getCol c) := (Option.some.inj hcats2).symm
      have hcmem : c ∈ e.columns := by
        obtain ⟨hi, hgi⟩ := List.getElem?_eq_some.mp hcol
        exact hgi ▸ List.getElem_mem hi
      have hok2 := (fitCheck_eq_none_iff x0 e.columns).mp hchk c hcmem
      rw [hcatseq, fitCats_length]
      exact hok2.2
  -- the group's length equals the number of fitted categories
  have hgx2 := hgx
  unfold expansionGroups at hgx2
  rw [List.getElem?_map] at hgx2
  have hlen : gx.length = cats.length := by
    cases hz : f.zipped[i]? with
    | none => rw [hz] at hgx2; cases hgx2
    | some cpc =>
      rw [hz] at hgx2
      have hgxeq : gx = cpc.2.2.map (fun v =>
          (String.intercalate f.enc.prefix_sep [cpc.2.1, v.render],
           (x.getCol cpc.1).map (fun w => oneHotCell w v))) :=
        (Option.some.inj hgx2).symm
      have hz2 : (f.enc.prefixes.zip f.categories)[i]? = some cpc.2 := by
        have := zip_getElem?_eq_some (l := f.enc.columns)
          (m := f.enc.prefixes.zip f.categories) (i := i)
          (a := cpc.1) (b := cpc.2) (by simpa [Fitted.zipped] using hz)
        exact this.2
      have hz3 : f.categories[i]? = some cpc.2.2 :=
        (zip_getElem?_eq_some (l := f.enc.prefixes) (m := f.categories)
          (i := i) (a := cpc.2.1) (b := cpc.2.2) (by simpa using hz2)).2
      have hcc : cpc.2.2 = cats := by
        rw [hz3] at hcats
        exact Option.some.inj hcats
      rw [hgxeq, List.length_map, hcc]
  have hsurv : (survivingGroups f x)[i]? =
      some (if f.enc.drop_first then gx.tail else gx) := by
    unfold survivingGroups
    rw [List.getElem?_map, hgx]
    show some (gx.filter (fun q => !(f.colsToDrop.contains q.1))) = _
    rw [surviving_group_eq f x hnodup hgx]
  refine ⟨hk, hlen, hsurv, ?_⟩
  rw [hsurv]
  by_cases hdf : f.enc.drop_first <;>
    simp [hdf, List.length_tail, hlen]

/-- C2 witness: for the `color` example with `drop_first = true` and three
fitted categories, the surviving expansion group is the tail (`color_green`,
`color_red`), of length 3 − 1 = 2. -/
theorem c2_witness :
    2 ≤ ([Val.str ("blue"), Val.str ("green"), Val.str ("red")] : List Val).length
  ∧ ([(("color_blue" : String), [Val.int 0, Val.int 1]),
      ("color_green", [Val.int 0, Val.int 0]),
      ("color_red", [Val.int 1, Val.int 0])]).length =
      ([Val.str ("blue"), Val.str ("green"), Val.str ("red")] : List Val).length
  ∧ (survivingGroups ⟨⟨["color"], ["color"], "_", true⟩,
        [[Val.str ("blue"), Val.str ("green"), Val.str ("red")]]⟩
        ⟨[0, 1], [("color", [Val.str ("red"), Val.str ("blue")])]⟩)[0]? =
      some [("color_green", [Val.int 0, Val.int 0]),
            ("color_red", [Val.int 1, Val.int 0])]
  ∧ ((survivingGroups ⟨⟨["color"], ["color"], "_", true⟩,
        [[Val.str ("blue"), Val.str ("green"), Val.str ("red")]]⟩
        ⟨[0, 1], [("color", [Val.str ("red"), Val.str ("blue")])]⟩)[0]?).map
        List.length = some 2 :=
  c2_column_count ⟨["color"], ["color"], "_", true⟩
    ⟨[0, 1, 2, 3], [("color",
      [Val.str ("red"), Val.str ("blue"), Val.str ("red"), Val.str ("green")])]⟩
    ⟨[0, 1], [("color", [Val.str ("red"), Val.str ("blue")])]⟩
    ⟨⟨["color"], ["color"], "_", true⟩,
      [[Val.str ("blue"), Val.str ("green"), Val.str ("red")]]⟩
    rfl (by decide) 0
    [Val.str ("blue"), Val.str ("green"), Val.str ("red")]
    [("color_blue", [Val.int 0, Val.int 1]),
     ("color_green", [Val.int 0, Val.int 0]),
     ("color_red", [Val.int 1, Val.int 0])]
    rfl rfl

end BrendaUtils
